import Mathlib

/-!
Shallow embedding of the Arrow Flight diagnostic client script
(src/client.py of neo4j-arrow) and verification of its specification.

The script is sequential glue over an RPC client library.  We model the
remote library as an oracle (structure Server below) giving the outcome of
each RPC primitive, and the script body as a function runScript that
threads through the same control flow as the Python source, recording
  - the sequence of RPC calls performed (with the headers passed),
  - the sequence of console outputs (structured, one constructor per
    print statement of the source),
  - the final outcome (sys.exit code, or an uncaught exception).
-/

/-- Byte strings are lists of byte values. -/
abbrev Bytes := List Nat

/-- UTF-8 encoding of the ASCII strings used by the script
(all characters involved are below 128, where UTF-8 is the identity). -/
def utf8 (s : String) : Bytes := s.data.map Char.toNat

/-- The base64 alphabet of RFC 4648. -/
def b64Alphabet : String :=
  "ABCDEFGHIJKLMNOPQRSTUVWXYZabcdefghijklmnopqrstuvwxyz0123456789+/"

/-- Byte value of the base64 digit for a sextet. -/
def b64Char (n : Nat) : Nat := (b64Alphabet.data.getD n 'A').toNat

/-- base64.b64encode: groups of three bytes become four sextet digits;
a final group of one or two bytes is padded with the byte 61 (the sign =). -/
def b64encode : Bytes → Bytes
  | [] => []
  | [a] => [b64Char (a / 4), b64Char (a % 4 * 16), 61, 61]
  | [a, b] => [b64Char (a / 4), b64Char (a % 4 * 16 + b / 16), b64Char (b % 16 * 4), 61]
  | a :: b :: c :: rest =>
      b64Char (a / 4) :: b64Char (a % 4 * 16 + b / 16) ::
      b64Char (b % 16 * 4 + c / 64) :: b64Char (c % 64) :: b64encode rest

/-- A call header, as in pyarrow FlightCallOptions: a (name, value) byte pair. -/
abbrev Header := Bytes × Bytes

/-- Python exception classes relevant to the script: the script inspects
whether the dynamic type of a caught exception is exactly
flight.FlightUnauthenticatedError; every other class is opaque to it. -/
inductive ExcType
  | flightUnauthenticated
  | other (name : String)
deriving DecidableEq

/-- A raised exception: its dynamic class and its message (str/args). -/
structure Exc where
  ty : ExcType
  msg : String
deriving DecidableEq

/-- Outcome of client.wait_for_available: return, or raise an exception. -/
inductive ProbeResult
  | ok
  | raise (e : Exc)
deriving DecidableEq

/-- An advertised action, as in pyarrow ActionType: a name and a description. -/
structure ActionType where
  ty : String
  description : String
deriving DecidableEq

/-- One endpoint of a flight, carrying the retrieval ticket. -/
structure FlightEndpoint where
  ticket : Bytes
deriving DecidableEq

/-- A FlightInfo: the descriptor command and the list of endpoints. -/
structure FlightInfo where
  command : Bytes
  endpoints : List FlightEndpoint
deriving DecidableEq

/-- The ticket chosen by the script for a flight: endpoints[0].ticket
(defaulting to the empty ticket when there is no endpoint; the script
itself crashes in that case before using the value). -/
def FlightInfo.firstTicket (f : FlightInfo) : Bytes :=
  (f.endpoints.headD ⟨[]⟩).ticket

/-- A record batch: its columns (opaque to the script beyond printing). -/
structure Chunk where
  cols : List String
deriving DecidableEq

/-- The oracle for the remote side: what each RPC primitive of the pyarrow
client does in this run.  Streams that can fail mid-way are given as the
prefix of items yielded before the failure, plus the optional exception. -/
structure Server where
  probeResult : ProbeResult
  listActionsResult : List Header → Except Exc (List ActionType)
  doActionResult : String × Bytes → List Header → List Bytes × Option Exc
  listFlightsResult : List Header → Except Exc (List FlightInfo)
  doGetResult : Bytes → List Header → List (Chunk × String) × Option Exc

/-- One RPC call performed by the script, with the options it passed. -/
inductive Call
  | probe (timeout : Nat)
  | listActions (headers : List Header)
  | doAction (a : String × Bytes) (headers : List Header)
  | listFlights (headers : List Header)
  | doGet (ticket : Bytes) (headers : List Header)
deriving DecidableEq

/-- The headers attached to a call; none for the probe, which is made
before the FlightCallOptions are built and takes no options. -/
def Call.headers : Call → Option (List Header)
  | .probe _ => none
  | .listActions h => some h
  | .doAction _ h => some h
  | .listFlights h => some h
  | .doGet _ h => some h

/-- The ticket redeemed by a call, when the call is a do_get. -/
def Call.ticketOf : Call → Option Bytes
  | .doGet t _ => some t
  | _ => none

/-- Structured console output: one constructor per print of the source. -/
inductive Output
  | tryingToConnect (host : String) (port : Nat)
  | connected
  | failedToConnect (args : String)
  | serverRequiresAuth
  | zeroActions
  | foundActions (n : Nat)
  | actionItem (a : ActionType)
  | row (body : Bytes)
  | actionWarning (msg : String)
  | zeroFlights
  | foundFlights (n : Nat)
  | flightItem (cmd : Bytes) (ticket : Bytes)
  | chunkItem (c : Chunk) (metadata : String)
  | colItem (c : String)
deriving DecidableEq

/-- The byte body printed by a row output, when the output is a row. -/
def Output.rowBody : Output → Option Bytes
  | .row b => some b
  | _ => none

/-- How the run ends: sys.exit with a code (falling off the end of the
script is exit code 0), or an exception left uncaught. -/
inductive Outcome
  | exited (code : Nat)
  | uncaught (e : Exc)
deriving DecidableEq

/-- The observable result of a run: calls made, lines printed, outcome. -/
structure RunResult where
  calls : List Call
  log : List Output
  outcome : Outcome
deriving DecidableEq

/-- location = ("192.168.1.42", 9999), line 8 of the source. -/
def location : String × Nat := ("192.168.1.42", 9999)

/-- The unused schema declaration of line 34 of the source. -/
def schemaDecl : List (String × String) := [("n", "string")]

/-- The action tuple of line 35 of the source. -/
def theAction : String × Bytes :=
  ("cypherRead", utf8 "UNWIND range(1, 23) AS n RETURN n")

/-- FlightCallOptions of lines 22 to 24: the single authorization header. -/
def options : List Header :=
  [(utf8 "authorization", utf8 "Basic " ++ b64encode (utf8 "neo4j:password"))]

/-- The exception raised by endpoints[0] on an endpoint-free flight. -/
def indexErr : Exc := ⟨ExcType.other "IndexError", "list index out of range"⟩

/-- The output of line 10 of the source, printed before probing. -/
def probeBanner : List Output := [Output.tryingToConnect location.1 location.2]

/-- Console lines for one fetched stream: the chunk line then one line
per column, for each (chunk, metadata) pair, lines 52 to 56. -/
def chunkLog (chunks : List (Chunk × String)) : List Output :=
  (chunks.map fun p => Output.chunkItem p.1 p.2 :: p.1.cols.map Output.colItem).flatten

/-- Lines 44 to 47: the banner printed for the flight listing. -/
def flightsBanner (fls : List FlightInfo) : List Output :=
  if fls.length = 0 then [Output.zeroFlights] else [Output.foundFlights fls.length]

/-- Lines 27 to 32: the banner printed for the action listing. -/
def actionsBanner (acts : List ActionType) : List Output :=
  if acts.length = 0 then [Output.zeroActions]
  else Output.foundActions acts.length :: acts.map Output.actionItem

/-- Lines 48 to 56: the loop over the listed flights.  For each flight the
ticket of endpoints[0] is read (raising IndexError when there is none),
the flight line is printed, do_get is called with the options, and the
stream is drained; an exception from do_get or from draining is uncaught. -/
def fetchLoop (s : Server) : List FlightInfo → RunResult
  | [] => ⟨[], [], Outcome.exited 0⟩
  | f :: rest =>
    match f.endpoints with
    | [] => ⟨[], [], Outcome.uncaught indexErr⟩
    | ep :: _ =>
      match s.doGetResult ep.ticket options with
      | (chunks, some e) =>
          ⟨[Call.doGet ep.ticket options],
           Output.flightItem f.command ep.ticket :: chunkLog chunks,
           Outcome.uncaught e⟩
      | (chunks, none) =>
          ⟨Call.doGet ep.ticket options :: (fetchLoop s rest).calls,
           Output.flightItem f.command ep.ticket :: chunkLog chunks ++ (fetchLoop s rest).log,
           (fetchLoop s rest).outcome⟩

/-- Lines 43 to 56: list_flights (an exception here is uncaught), print
the banner, then run the fetch loop. -/
def stageFlights (s : Server) : RunResult :=
  match s.listFlightsResult options with
  | .error e => ⟨[Call.listFlights options], [], Outcome.uncaught e⟩
  | .ok fls =>
      ⟨Call.listFlights options :: (fetchLoop s fls).calls,
       flightsBanner fls ++ (fetchLoop s fls).log,
       (fetchLoop s fls).outcome⟩

/-- Lines 36 to 41: do_action inside try/except.  The rows yielded before
any failure are printed; on an exception the warning line with the
message is printed and the script exits with code 1. -/
def stageAction (s : Server) : RunResult :=
  match s.doActionResult theAction options with
  | (rows, some e) =>
      ⟨[Call.doAction theAction options],
       rows.map Output.row ++ [Output.actionWarning e.msg],
       Outcome.exited 1⟩
  | (rows, none) =>
      ⟨Call.doAction theAction options :: (stageFlights s).calls,
       rows.map Output.row ++ (stageFlights s).log,
       (stageFlights s).outcome⟩

/-- Lines 26 to 32: list(client.list_actions(...)) (an exception here is
uncaught), print the banner, then continue with the action invocation. -/
def stageActions (s : Server) : RunResult :=
  match s.listActionsResult options with
  | .error e => ⟨[Call.listActions options], [], Outcome.uncaught e⟩
  | .ok acts =>
      ⟨Call.listActions options :: (stageAction s).calls,
       actionsBanner acts ++ (stageAction s).log,
       (stageAction s).outcome⟩

/-- Lines 10 to 56: the whole script.  wait_for_available(5) is probed
inside try/except; an exception whose dynamic type is not exactly
FlightUnauthenticatedError prints the failure line and exits with code 1;
a FlightUnauthenticatedError prints the auth notice and the run continues. -/
def runScript (s : Server) : RunResult :=
  match s.probeResult with
  | ProbeResult.ok =>
      ⟨Call.probe 5 :: (stageActions s).calls,
       probeBanner ++ Output.connected :: (stageActions s).log,
       (stageActions s).outcome⟩
  | ProbeResult.raise e =>
      if e.ty ≠ ExcType.flightUnauthenticated then
        ⟨[Call.probe 5], probeBanner ++ [Output.failedToConnect e.msg], Outcome.exited 1⟩
      else
        ⟨Call.probe 5 :: (stageActions s).calls,
         probeBanner ++ Output.serverRequiresAuth :: (stageActions s).log,
         (stageActions s).outcome⟩

/-- The probe step lets the run continue: the probe returned, or it raised
an exception of dynamic type exactly FlightUnauthenticatedError. -/
def probeContinues (s : Server) : Prop :=
  s.probeResult = ProbeResult.ok ∨
  ∃ e, s.probeResult = ProbeResult.raise e ∧ e.ty = ExcType.flightUnauthenticated

/-- A demonstration flight with two endpoints. -/
def demoFlight : FlightInfo :=
  ⟨utf8 "demo-query", [⟨utf8 "ticket-1"⟩, ⟨utf8 "ticket-2"⟩]⟩

/-- A server on which every step succeeds. -/
def okServer : Server :=
  ⟨ProbeResult.ok,
   fun _ => Except.ok [⟨"cypherRead", "runs a cypher query"⟩],
   fun _ _ => ([utf8 "1"], none),
   fun _ => Except.ok [demoFlight],
   fun _ _ => ([(⟨["col0"]⟩, "meta")], none)⟩

/-- An exception of dynamic type exactly FlightUnauthenticatedError. -/
def authExc : Exc := ⟨ExcType.flightUnauthenticated, "flight unauthenticated"⟩

/-- A connection failure of a different dynamic type. -/
def connExc : Exc := ⟨ExcType.other "FlightUnavailableError", "connect failed"⟩

/-- A generic server-side failure. -/
def srvExc : Exc := ⟨ExcType.other "FlightServerError", "stream interrupted"⟩

/-- The ok server, but the probe raises FlightUnauthenticatedError. -/
def authServer : Server := { okServer with probeResult := ProbeResult.raise authExc }

/-- The ok server, but the probe raises a non-auth failure. -/
def connFailServer : Server := { okServer with probeResult := ProbeResult.raise connExc }

/-- The ok server, but the action stream fails after one row. -/
def actionFailServer : Server :=
  { okServer with doActionResult := fun _ _ => ([utf8 "1"], some srvExc) }

/-- The ok server, but list_flights raises. -/
def flightsFailServer : Server :=
  { okServer with listFlightsResult := fun _ => Except.error srvExc }

/-- The ok server, but do_get fails at once. -/
def getFailServer : Server :=
  { okServer with doGetResult := fun _ _ => ([], some srvExc) }

/-- The ok server, but with zero actions and zero flights advertised. -/
def emptyServer : Server :=
  { okServer with
      listActionsResult := fun _ => Except.ok [],
      listFlightsResult := fun _ => Except.ok [] }

/-- The 23 records a conforming server streams for the query
UNWIND range(1, 23) AS n RETURN n: Cypher range is inclusive at both
ends, so the rows are n = 1 through n = 23, one record each. -/
def cypherRows : List Bytes := (List.range 23).map fun n => utf8 (toString (n + 1))

/-- The ok server, but streaming the full 23-record result of the query. -/
def fullServer : Server :=
  { okServer with doActionResult := fun _ _ => (cypherRows, none) }

/-- Outputs that can only come from the flight listing and fetching stage. -/
def Output.isFlightsOut : Output → Bool
  | .zeroFlights => true
  | .foundFlights _ => true
  | .flightItem _ _ => true
  | .chunkItem _ _ => true
  | .colItem _ => true
  | _ => false

/-- Outputs that can be printed after the probe stage is over. -/
def Output.isPostProbe : Output → Bool
  | .tryingToConnect _ _ => false
  | .connected => false
  | .failedToConnect _ => false
  | .serverRequiresAuth => false
  | _ => true

/-- Lists of calls made only of do_get fetches. -/
def onlyDoGets : List Call → Bool
  | [] => true
  | Call.doGet _ _ :: rest => onlyDoGets rest
  | _ => false

/-- The shapes a call trace of the script can take: the probe alone, or
the probe followed by the action listing, optionally the invocation,
optionally the flight listing, and then only do_get fetches; each of the
four leading stages occurs at most once and in this fixed order. -/
def goodCalls : List Call → Bool
  | [Call.probe _] => true
  | [Call.probe _, Call.listActions _] => true
  | [Call.probe _, Call.listActions _, Call.doAction _ _] => true
  | Call.probe _ :: Call.listActions _ :: Call.doAction _ _ ::
      Call.listFlights _ :: rest => onlyDoGets rest
  | _ => false

/-- Whether a call is the action invocation. -/
def Call.isInvoke : Call → Bool
  | .doAction _ _ => true
  | _ => false

/-- The part of a call trace from the action invocation onwards. -/
def invokeTail (cs : List Call) : List Call :=
  cs.dropWhile fun c => !c.isInvoke

lemma isFlightsOut_rowBody {o : Output} (h : o.isFlightsOut = true) :
    o.rowBody = none := by
  cases o <;> simp_all [Output.isFlightsOut, Output.rowBody]

lemma isFlightsOut_postProbe {o : Output} (h : o.isFlightsOut = true) :
    o.isPostProbe = true := by
  cases o <;> simp_all [Output.isFlightsOut, Output.isPostProbe]

lemma chunkLog_flightsOut (chunks : List (Chunk × String)) :
    ∀ o ∈ chunkLog chunks, o.isFlightsOut = true := by
  intro o ho
  simp only [chunkLog, List.mem_flatten, List.mem_map] at ho
  obtain ⟨l, ⟨p, _, rfl⟩, hol⟩ := ho
  simp only [List.mem_cons, List.mem_map] at hol
  rcases hol with rfl | ⟨c, _, rfl⟩ <;> simp [Output.isFlightsOut]

lemma fetchLoop_log_flightsOut (s : Server) :
    ∀ fls : List FlightInfo, ∀ o ∈ (fetchLoop s fls).log, o.isFlightsOut = true := by
  intro fls
  induction fls with
  | nil => intro o ho; simp [fetchLoop] at ho
  | cons f rest ih =>
    intro o ho
    rcases hep : f.endpoints with _ | ⟨ep, eps⟩ <;>
      simp only [fetchLoop, hep] at ho
    · simp at ho
    · rcases hg : s.doGetResult ep.ticket options with ⟨chunks, exc⟩
      rw [hg] at ho
      cases exc with
      | some e =>
        simp only [List.mem_cons] at ho
        rcases ho with rfl | ho
        · simp [Output.isFlightsOut]
        · exact chunkLog_flightsOut chunks o ho
      | none =>
        have ho2 : o = Output.flightItem f.command ep.ticket ∨
            o ∈ chunkLog chunks ∨ o ∈ (fetchLoop s rest).log := by
          simpa [List.mem_cons, List.mem_append, or_assoc] using ho
        rcases ho2 with rfl | ho2 | ho2
        · simp [Output.isFlightsOut]
        · exact chunkLog_flightsOut chunks o ho2
        · exact ih o ho2

lemma stageFlights_log_flightsOut (s : Server) :
    ∀ o ∈ (stageFlights s).log, o.isFlightsOut = true := by
  intro o ho
  unfold stageFlights at ho
  rcases hf : s.listFlightsResult options with e | fls <;> rw [hf] at ho
  · simp at ho
  · simp only [List.mem_append] at ho
    rcases ho with ho | ho
    · unfold flightsBanner at ho
      split at ho <;> simp at ho <;> simp [ho, Output.isFlightsOut]
    · exact fetchLoop_log_flightsOut s fls o ho

lemma stageAction_log_postProbe (s : Server) :
    ∀ o ∈ (stageAction s).log, o.isPostProbe = true := by
  intro o ho
  unfold stageAction at ho
  rcases hd : s.doActionResult theAction options with ⟨rows, exc⟩
  rw [hd] at ho
  cases exc with
  | some e =>
    simp only [List.mem_append, List.mem_map, List.mem_singleton] at ho
    rcases ho with ⟨b, _, rfl⟩ | rfl <;> simp [Output.isPostProbe]
  | none =>
    simp only [List.mem_append, List.mem_map] at ho
    rcases ho with ⟨b, _, rfl⟩ | ho
    · simp [Output.isPostProbe]
    · exact isFlightsOut_postProbe (stageFlights_log_flightsOut s o ho)

lemma stageActions_log_postProbe (s : Server) :
    ∀ o ∈ (stageActions s).log, o.isPostProbe = true := by
  intro o ho
  unfold stageActions at ho
  rcases ha : s.listActionsResult options with e | acts <;> rw [ha] at ho
  · simp at ho
  · simp only [List.mem_append] at ho
    rcases ho with ho | ho
    · unfold actionsBanner at ho
      split at ho
      · simp at ho; simp [ho, Output.isPostProbe]
      · simp only [List.mem_cons, List.mem_map] at ho
        rcases ho with rfl | ⟨a, _, rfl⟩ <;> simp [Output.isPostProbe]
    · exact stageAction_log_postProbe s o ho

lemma runScript_continue (s : Server) (hp : probeContinues s) :
    (runScript s).calls = Call.probe 5 :: (stageActions s).calls ∧
    (runScript s).outcome = (stageActions s).outcome ∧
    ∃ o, (o = Output.connected ∨ o = Output.serverRequiresAuth) ∧
      (runScript s).log = probeBanner ++ o :: (stageActions s).log := by
  rcases hp with h | ⟨e, h, ht⟩
  · unfold runScript; rw [h]
    exact ⟨rfl, rfl, Output.connected, Or.inl rfl, rfl⟩
  · unfold runScript; rw [h]
    rcases e with ⟨ty, msg⟩
    cases ty with
    | flightUnauthenticated =>
      exact ⟨rfl, rfl, Output.serverRequiresAuth, Or.inr rfl, rfl⟩
    | other n => simp [Exc.ty] at ht

lemma stageActions_ok (s : Server) (acts : List ActionType)
    (ha : s.listActionsResult options = Except.ok acts) :
    stageActions s = ⟨Call.listActions options :: (stageAction s).calls,
      actionsBanner acts ++ (stageAction s).log, (stageAction s).outcome⟩ := by
  unfold stageActions; rw [ha]

lemma stageAction_fail (s : Server) (rows : List Bytes) (e : Exc)
    (hd : s.doActionResult theAction options = (rows, some e)) :
    stageAction s = ⟨[Call.doAction theAction options],
      rows.map Output.row ++ [Output.actionWarning e.msg], Outcome.exited 1⟩ := by
  unfold stageAction; rw [hd]

lemma stageAction_ok (s : Server)
    (hd : (s.doActionResult theAction options).2 = none) :
    stageAction s = ⟨Call.doAction theAction options :: (stageFlights s).calls,
      (s.doActionResult theAction options).1.map Output.row ++ (stageFlights s).log,
      (stageFlights s).outcome⟩ := by
  unfold stageAction
  rcases h : s.doActionResult theAction options with ⟨rows, exc⟩
  rw [h] at hd
  cases exc with
  | none => rfl
  | some e => simp at hd

lemma stageFlights_fail (s : Server) (e : Exc)
    (hf : s.listFlightsResult options = Except.error e) :
    stageFlights s = ⟨[Call.listFlights options], [], Outcome.uncaught e⟩ := by
  unfold stageFlights; rw [hf]

lemma stageFlights_ok (s : Server) (fls : List FlightInfo)
    (hf : s.listFlightsResult options = Except.ok fls) :
    stageFlights s = ⟨Call.listFlights options :: (fetchLoop s fls).calls,
      flightsBanner fls ++ (fetchLoop s fls).log, (fetchLoop s fls).outcome⟩ := by
  unfold stageFlights; rw [hf]

lemma firstTicket_cons (f : FlightInfo) (ep : FlightEndpoint)
    (eps : List FlightEndpoint) (hep : f.endpoints = ep :: eps) :
    f.firstTicket = ep.ticket := by
  unfold FlightInfo.firstTicket; rw [hep]; rfl

lemma fetchLoop_calls_map (s : Server) :
    ∀ fls : List FlightInfo, (∀ f ∈ fls, f.endpoints ≠ []) →
      (∀ f ∈ fls, (s.doGetResult f.firstTicket options).2 = none) →
      (fetchLoop s fls).calls = fls.map fun f => Call.doGet f.firstTicket options := by
  intro fls
  induction fls with
  | nil => intro _ _; rfl
  | cons f rest ih =>
    intro hne hok
    rcases hep : f.endpoints with _ | ⟨ep, eps⟩
    · exact absurd hep (hne f (List.mem_cons_self f rest))
    · have hft : f.firstTicket = ep.ticket := firstTicket_cons f ep eps hep
      have hg := hok f (List.mem_cons_self f rest)
      rw [hft] at hg
      rcases hgr : s.doGetResult ep.ticket options with ⟨chunks, exc⟩
      rw [hgr] at hg
      cases exc with
      | some e => simp at hg
      | none =>
        simp only [fetchLoop, hep, hgr, List.map_cons, hft]
        congr 1
        exact ih (fun g hg2 => hne g (List.mem_cons_of_mem f hg2))
          (fun g hg2 => hok g (List.mem_cons_of_mem f hg2))

lemma runScript_auth (s : Server) (e : Exc)
    (hp : s.probeResult = ProbeResult.raise e)
    (ht : e.ty = ExcType.flightUnauthenticated) :
    runScript s = ⟨Call.probe 5 :: (stageActions s).calls,
      probeBanner ++ Output.serverRequiresAuth :: (stageActions s).log,
      (stageActions s).outcome⟩ := by
  unfold runScript; rw [hp]
  rcases e with ⟨ty, msg⟩
  cases ty with
  | flightUnauthenticated => rfl
  | other n => simp [Exc.ty] at ht

lemma runScript_probeFail (s : Server) (e : Exc)
    (hp : s.probeResult = ProbeResult.raise e)
    (ht : e.ty ≠ ExcType.flightUnauthenticated) :
    runScript s = ⟨[Call.probe 5],
      probeBanner ++ [Output.failedToConnect e.msg], Outcome.exited 1⟩ := by
  unfold runScript; rw [hp]
  rcases e with ⟨ty, msg⟩
  cases ty with
  | flightUnauthenticated => exact absurd rfl ht
  | other n => rfl

lemma stageActions_calls_head (s : Server) :
    ∃ rest, (stageActions s).calls = Call.listActions options :: rest := by
  unfold stageActions
  rcases h : s.listActionsResult options with e | acts
  · exact ⟨[], rfl⟩
  · exact ⟨_, rfl⟩

lemma stageAction_calls_head (s : Server) :
    ∃ rest, (stageAction s).calls = Call.doAction theAction options :: rest := by
  unfold stageAction
  rcases h : s.doActionResult theAction options with ⟨rows, exc⟩
  cases exc with
  | some e => exact ⟨[], rfl⟩
  | none => exact ⟨_, rfl⟩

lemma fetchLoop_calls_headers (s : Server) :
    ∀ fls : List FlightInfo, ∀ c ∈ (fetchLoop s fls).calls, c.headers = some options := by
  intro fls
  induction fls with
  | nil => intro c hc; simp [fetchLoop] at hc
  | cons f rest ih =>
    intro c hc
    rcases hep : f.endpoints with _ | ⟨ep, eps⟩ <;>
      simp only [fetchLoop, hep] at hc
    · simp at hc
    · rcases hg : s.doGetResult ep.ticket options with ⟨chunks, exc⟩
      rw [hg] at hc
      cases exc with
      | some e =>
        simp only [List.mem_singleton] at hc
        simp [hc, Call.headers]
      | none =>
        rcases List.mem_cons.mp hc with rfl | hc2
        · simp [Call.headers]
        · exact ih c hc2

lemma stageFlights_calls_headers (s : Server) :
    ∀ c ∈ (stageFlights s).calls, c.headers = some options := by
  intro c hc
  unfold stageFlights at hc
  rcases hf : s.listFlightsResult options with e | fls <;> rw [hf] at hc
  · simp only [List.mem_singleton] at hc; simp [hc, Call.headers]
  · rcases List.mem_cons.mp hc with rfl | hc2
    · simp [Call.headers]
    · exact fetchLoop_calls_headers s fls c hc2

lemma stageAction_calls_headers (s : Server) :
    ∀ c ∈ (stageAction s).calls, c.headers = some options := by
  intro c hc
  unfold stageAction at hc
  rcases hd : s.doActionResult theAction options with ⟨rows, exc⟩
  rw [hd] at hc
  cases exc with
  | some e => simp only [List.mem_singleton] at hc; simp [hc, Call.headers]
  | none =>
    rcases List.mem_cons.mp hc with rfl | hc2
    · simp [Call.headers]
    · exact stageFlights_calls_headers s c hc2

lemma stageActions_calls_headers (s : Server) :
    ∀ c ∈ (stageActions s).calls, c.headers = some options := by
  intro c hc
  unfold stageActions at hc
  rcases ha : s.listActionsResult options with e | acts <;> rw [ha] at hc
  · simp only [List.mem_singleton] at hc; simp [hc, Call.headers]
  · rcases List.mem_cons.mp hc with rfl | hc2
    · simp [Call.headers]
    · exact stageAction_calls_headers s c hc2

/-- C1: when the probe raises an exception whose dynamic type is exactly
FlightUnauthenticatedError, the run treats it as a successful probe with
the distinguished AuthRequired status: the auth notice is printed, no
connection-failure line is ever printed (it is never a ConnectivityError),
and the run continues to the action listing. -/
theorem probe_auth_required_is_success (s : Server) (e : Exc)
    (hp : s.probeResult = ProbeResult.raise e)
    (ht : e.ty = ExcType.flightUnauthenticated) :
    Output.serverRequiresAuth ∈ (runScript s).log ∧
    (∀ m, Output.failedToConnect m ∉ (runScript s).log) ∧
    Call.listActions options ∈ (runScript s).calls := by
  rw [runScript_auth s e hp ht]
  refine ⟨by simp, ?_, ?_⟩
  · intro m hm
    rcases List.mem_append.mp hm with hm | hm
    · simp [probeBanner] at hm
    · rcases List.mem_cons.mp hm with hm | hm
      · exact Output.noConfusion hm
      · have h2 := stageActions_log_postProbe s _ hm
        simp [Output.isPostProbe] at h2
  · obtain ⟨rest, hr⟩ := stageActions_calls_head s
    simp [hr]

/-- C1 witness: a server whose probe raises FlightUnauthenticatedError. -/
theorem probe_auth_required_is_success_witness :
    Output.serverRequiresAuth ∈ (runScript authServer).log ∧
    (∀ m, Output.failedToConnect m ∉ (runScript authServer).log) ∧
    Call.listActions options ∈ (runScript authServer).calls :=
  probe_auth_required_is_success authServer authExc rfl rfl

/-- C2: when the probe raises an exception of any other dynamic type, the
failure line is printed and the run exits with code 1 at once: the probe
is the only call ever made, so no listActions, invoke, listFlights or
fetch is executed. -/
theorem probe_other_failure_fatal (s : Server) (e : Exc)
    (hp : s.probeResult = ProbeResult.raise e)
    (ht : e.ty ≠ ExcType.flightUnauthenticated) :
    runScript s = ⟨[Call.probe 5],
      probeBanner ++ [Output.failedToConnect e.msg], Outcome.exited 1⟩ :=
  runScript_probeFail s e hp ht

/-- C2 witness: a server whose probe raises a non-auth failure. -/
theorem probe_other_failure_fatal_witness :
    runScript connFailServer = ⟨[Call.probe 5],
      probeBanner ++ [Output.failedToConnect connExc.msg], Outcome.exited 1⟩ :=
  probe_other_failure_fatal connFailServer connExc rfl (by decide)

/-- C3: every RPC call of the run after the probe carries exactly the
single header list built from the credential: the authorization header
whose value is the bytes of Basic followed by the base64 of
neo4j:password, which is the byte string bmVvNGo6cGFzc3dvcmQ=. -/
theorem post_probe_calls_carry_basic_auth (s : Server) (c : Call)
    (hc : c ∈ (runScript s).calls) (hnp : c.headers ≠ none) :
    c.headers = some options ∧
    options = [(utf8 "authorization",
      utf8 "Basic " ++ b64encode (utf8 "neo4j:password"))] ∧
    b64encode (utf8 "neo4j:password") = utf8 "bmVvNGo6cGFzc3dvcmQ=" := by
  refine ⟨?_, rfl, by decide⟩
  rcases hps : s.probeResult with _ | e
  · obtain ⟨hcalls, _, o, _, _⟩ := runScript_continue s (Or.inl hps)
    rw [hcalls] at hc
    rcases List.mem_cons.mp hc with rfl | hc2
    · exact absurd rfl hnp
    · exact stageActions_calls_headers s c hc2
  · by_cases hty : e.ty = ExcType.flightUnauthenticated
    · rw [runScript_auth s e hps hty] at hc
      rcases List.mem_cons.mp hc with rfl | hc2
      · exact absurd rfl hnp
      · exact stageActions_calls_headers s c hc2
    · rw [runScript_probeFail s e hps hty] at hc
      simp only [List.mem_singleton] at hc
      subst hc
      exact absurd rfl hnp

/-- C3 witness: the list_actions call of the all-ok run. -/
theorem post_probe_calls_carry_basic_auth_witness :
    (Call.listActions options).headers = some options ∧
    options = [(utf8 "authorization",
      utf8 "Basic " ++ b64encode (utf8 "neo4j:password"))] ∧
    b64encode (utf8 "neo4j:password") = utf8 "bmVvNGo6cGFzc3dvcmQ=" :=
  post_probe_calls_carry_basic_auth okServer (Call.listActions options)
    (by decide) (by decide)

lemma runScript_reaches_flights (s : Server) (acts : List ActionType)
    (hp : probeContinues s)
    (ha : s.listActionsResult options = Except.ok acts)
    (hd : (s.doActionResult theAction options).2 = none) :
    (runScript s).calls = Call.probe 5 :: Call.listActions options ::
      Call.doAction theAction options :: (stageFlights s).calls ∧
    (runScript s).outcome = (stageFlights s).outcome := by
  obtain ⟨hc, ho, o, _, _⟩ := runScript_continue s hp
  rw [stageActions_ok s acts ha, stageAction_ok s hd] at hc ho
  exact ⟨hc, ho⟩

/-- C4: when the run reaches the flight stage and each fetch succeeds, the
tickets redeemed by do_get calls are exactly, in order, the ticket of
endpoints[0] of each listed flight: one fetch per flight, always the first
endpoint, and never a ticket of any other endpoint. -/
theorem flights_redeem_first_endpoint_only (s : Server) (acts : List ActionType)
    (fls : List FlightInfo)
    (hp : probeContinues s)
    (ha : s.listActionsResult options = Except.ok acts)
    (hd : (s.doActionResult theAction options).2 = none)
    (hf : s.listFlightsResult options = Except.ok fls)
    (hne : ∀ f ∈ fls, f.endpoints ≠ [])
    (hok : ∀ f ∈ fls, (s.doGetResult f.firstTicket options).2 = none) :
    (runScript s).calls.filterMap Call.ticketOf = fls.map FlightInfo.firstTicket := by
  obtain ⟨hc, _⟩ := runScript_reaches_flights s acts hp ha hd
  rw [hc, stageFlights_ok s fls hf, fetchLoop_calls_map s fls hne hok]
  simp only [List.filterMap_cons, Call.ticketOf, List.filterMap_map]
  have hcmp : Call.ticketOf ∘ (fun f : FlightInfo => Call.doGet f.firstTicket options)
      = some ∘ FlightInfo.firstTicket := rfl
  rw [hcmp, List.filterMap_eq_map]

/-- C4 witness: the all-ok run with a two-endpoint flight redeems only the
first ticket. -/
theorem flights_redeem_first_endpoint_only_witness :
    (runScript okServer).calls.filterMap Call.ticketOf
      = [demoFlight].map FlightInfo.firstTicket :=
  flights_redeem_first_endpoint_only okServer _ [demoFlight] (Or.inl rfl) rfl rfl rfl
    (by decide) (by decide)

/-- C5: when the action invocation fails at the start or mid-stream, the
run exits with code 1, the warning line carrying the exception message is
printed, and no list_flights and no do_get call is ever made. -/
theorem action_failure_aborts_run (s : Server) (acts : List ActionType)
    (rows : List Bytes) (e : Exc)
    (hp : probeContinues s)
    (ha : s.listActionsResult options = Except.ok acts)
    (hd : s.doActionResult theAction options = (rows, some e)) :
    (runScript s).outcome = Outcome.exited 1 ∧
    Output.actionWarning e.msg ∈ (runScript s).log ∧
    (∀ h, Call.listFlights h ∉ (runScript s).calls) ∧
    (∀ t h, Call.doGet t h ∉ (runScript s).calls) := by
  obtain ⟨hc, ho, o, hov, hl⟩ := runScript_continue s hp
  rw [stageActions_ok s acts ha, stageAction_fail s rows e hd] at hc ho hl
  refine ⟨ho, ?_, ?_, ?_⟩
  · rw [hl]; simp
  · intro h hmem
    rw [hc] at hmem
    simp at hmem
  · intro t h hmem
    rw [hc] at hmem
    simp at hmem

/-- C5 witness: a server whose action stream fails after one row. -/
theorem action_failure_aborts_run_witness :
    (runScript actionFailServer).outcome = Outcome.exited 1 ∧
    Output.actionWarning srvExc.msg ∈ (runScript actionFailServer).log ∧
    (∀ h, Call.listFlights h ∉ (runScript actionFailServer).calls) ∧
    (∀ t h, Call.doGet t h ∉ (runScript actionFailServer).calls) :=
  action_failure_aborts_run actionFailServer _ [utf8 "1"] srvExc (Or.inl rfl) rfl rfl

/-- C6: a zero-length action listing and a zero-length flight listing are
valid non-error outcomes: the zero banners are printed, the run still
performs the action invocation, and it terminates normally with exit
code 0 rather than raising. -/
theorem empty_listings_are_valid (s : Server)
    (hp : probeContinues s)
    (ha : s.listActionsResult options = Except.ok [])
    (hd : (s.doActionResult theAction options).2 = none)
    (hf : s.listFlightsResult options = Except.ok []) :
    Output.zeroActions ∈ (runScript s).log ∧
    Output.zeroFlights ∈ (runScript s).log ∧
    Call.doAction theAction options ∈ (runScript s).calls ∧
    (runScript s).outcome = Outcome.exited 0 := by
  obtain ⟨hc, ho, o, hov, hl⟩ := runScript_continue s hp
  rw [stageActions_ok s [] ha, stageAction_ok s hd, stageFlights_ok s [] hf]
    at hc ho hl
  refine ⟨?_, ?_, ?_, ?_⟩
  · rw [hl]; simp [actionsBanner]
  · rw [hl]; simp [actionsBanner, flightsBanner, fetchLoop]
  · rw [hc]; simp
  · rw [ho]; rfl

/-- C6 witness: a server advertising zero actions and zero flights. -/
theorem empty_listings_are_valid_witness :
    Output.zeroActions ∈ (runScript emptyServer).log ∧
    Output.zeroFlights ∈ (runScript emptyServer).log ∧
    Call.doAction theAction options ∈ (runScript emptyServer).calls ∧
    (runScript emptyServer).outcome = Outcome.exited 0 :=
  empty_listings_are_valid emptyServer (Or.inl rfl) rfl rfl rfl

lemma actionsBanner_no_rows (acts : List ActionType) :
    (actionsBanner acts).filterMap Output.rowBody = [] := by
  rw [List.filterMap_eq_nil_iff]
  intro o ho
  unfold actionsBanner at ho
  split at ho
  · simp at ho; simp [ho, Output.rowBody]
  · simp only [List.mem_cons, List.mem_map] at ho
    rcases ho with rfl | ⟨a, _, rfl⟩ <;> rfl

lemma stageFlights_log_no_rows (s : Server) :
    (stageFlights s).log.filterMap Output.rowBody = [] := by
  rw [List.filterMap_eq_nil_iff]
  intro o ho
  exact isFlightsOut_rowBody (stageFlights_log_flightsOut s o ho)

lemma filterMap_rowBody_rows (rows : List Bytes) :
    (rows.map Output.row).filterMap Output.rowBody = rows := by
  rw [List.filterMap_map]
  have h : Output.rowBody ∘ Output.row = some := rfl
  rw [h, List.filterMap_some]

/-- C7 counterexample: the script does not use endpoint ("127.0.0.1", 9999)
and does not send the query of the claim: the source pins the endpoint
("192.168.1.42", 9999) and the query UNWIND range(1, 23) AS n RETURN n. -/
theorem run_constants_counterexample :
    location = ("192.168.1.42", 9999) ∧
    location ≠ ("127.0.0.1", 9999) ∧
    theAction = ("cypherRead", utf8 "UNWIND range(1, 23) AS n RETURN n") ∧
    theAction.2 ≠ utf8 "UNWIND range(1,3) AS n RETURN n" := by
  refine ⟨rfl, ?_, rfl, ?_⟩ <;> decide

/-- C7 (amended): the end-to-end run uses endpoint ("192.168.1.42", 9999),
the credential neo4j:password in the Basic authorization header, and
invokes the action cypherRead with payload UNWIND range(1, 23) AS n
RETURN n; the byte records printed are exactly those streamed by the
server for that action. -/
theorem run_constants_and_streamed_rows (s : Server) (acts : List ActionType)
    (rows : List Bytes)
    (hp : probeContinues s)
    (ha : s.listActionsResult options = Except.ok acts)
    (hd : s.doActionResult theAction options = (rows, none)) :
    location = ("192.168.1.42", 9999) ∧
    options = [(utf8 "authorization",
      utf8 "Basic " ++ b64encode (utf8 "neo4j:password"))] ∧
    theAction = ("cypherRead", utf8 "UNWIND range(1, 23) AS n RETURN n") ∧
    (runScript s).log.filterMap Output.rowBody = rows := by
  refine ⟨rfl, rfl, rfl, ?_⟩
  obtain ⟨hc, ho, o, hov, hl⟩ := runScript_continue s hp
  have hd2 : (s.doActionResult theAction options).2 = none := by rw [hd]
  rw [stageActions_ok s acts ha, stageAction_ok s hd2] at hl
  have hno : Output.rowBody o = none := by rcases hov with rfl | rfl <;> rfl
  rw [hl, hd]
  rw [List.filterMap_append, List.filterMap_cons, hno, List.filterMap_append,
      List.filterMap_append, actionsBanner_no_rows, filterMap_rowBody_rows,
      stageFlights_log_no_rows]
  simp [probeBanner, Output.rowBody]

/-- C7 witness: a server streaming the 23 records n = 1 through n = 23 of
the query makes the run print exactly those 23 records. -/
theorem run_constants_and_streamed_rows_witness :
    (location = ("192.168.1.42", 9999) ∧
     options = [(utf8 "authorization",
       utf8 "Basic " ++ b64encode (utf8 "neo4j:password"))] ∧
     theAction = ("cypherRead", utf8 "UNWIND range(1, 23) AS n RETURN n") ∧
     (runScript fullServer).log.filterMap Output.rowBody = cypherRows) ∧
    cypherRows.length = 23 :=
  ⟨run_constants_and_streamed_rows fullServer _ cypherRows (Or.inl rfl) rfl rfl,
   by decide⟩

lemma fetchLoop_onlyDoGets (s : Server) :
    ∀ fls : List FlightInfo, onlyDoGets (fetchLoop s fls).calls = true := by
  intro fls
  induction fls with
  | nil => rfl
  | cons f rest ih =>
    rcases hep : f.endpoints with _ | ⟨ep, eps⟩ <;> simp only [fetchLoop, hep]
    · rfl
    · rcases hg : s.doGetResult ep.ticket options with ⟨chunks, exc⟩
      cases exc with
      | some e => rfl
      | none => exact ih

lemma goodCalls_stageActions (s : Server) :
    goodCalls (Call.probe 5 :: (stageActions s).calls) = true := by
  unfold stageActions
  rcases ha : s.listActionsResult options with e | acts
  · rfl
  · unfold stageAction
    rcases hd : s.doActionResult theAction options with ⟨rows, exc⟩
    cases exc with
    | some e2 => rfl
    | none =>
      unfold stageFlights
      rcases hf : s.listFlightsResult options with e3 | fls
      · rfl
      · exact fetchLoop_onlyDoGets s fls

/-- C8: the run is strictly sequential in the fixed order probe, then
list_actions, then do_action, then list_flights, then the fetches: every
call trace the script can produce is the probe followed by an optional
chain in that exact order, with each of the four stages occurring at most
once (no retries), and with only do_get fetches after the flight listing. -/
theorem run_is_sequential_no_retries (s : Server) :
    goodCalls (runScript s).calls = true := by
  rcases hps : s.probeResult with _ | e
  · rw [(runScript_continue s (Or.inl hps)).1]
    exact goodCalls_stageActions s
  · by_cases hty : e.ty = ExcType.flightUnauthenticated
    · rw [runScript_auth s e hps hty]
      exact goodCalls_stageActions s
    · rw [runScript_probeFail s e hps hty]
      rfl

/-- C9: error handling is asymmetric at the public interface: a failure
raised by list_flights propagates out of the run as an uncaught exception,
and so does a failure raised while fetching a flight with do_get, whereas
an action-invocation failure is caught and turned into a diagnostic exit
with code 1. -/
theorem error_propagation_asymmetry
    (s t u : Server) (sacts tacts uacts : List ActionType)
    (e1 e2 e3 : Exc) (rows : List Bytes) (f : FlightInfo)
    (hps : probeContinues s)
    (has : s.listActionsResult options = Except.ok sacts)
    (hds : (s.doActionResult theAction options).2 = none)
    (hfs : s.listFlightsResult options = Except.error e1)
    (hpu : probeContinues u)
    (hau : u.listActionsResult options = Except.ok uacts)
    (hdu : (u.doActionResult theAction options).2 = none)
    (hfu : u.listFlightsResult options = Except.ok [f])
    (hep : f.endpoints ≠ [])
    (hgu : (u.doGetResult f.firstTicket options).2 = some e3)
    (hpt : probeContinues t)
    (hat : t.listActionsResult options = Except.ok tacts)
    (hdt : t.doActionResult theAction options = (rows, some e2)) :
    (runScript s).outcome = Outcome.uncaught e1 ∧
    (runScript u).outcome = Outcome.uncaught e3 ∧
    (runScript t).outcome = Outcome.exited 1 := by
  refine ⟨?_, ?_, ?_⟩
  · obtain ⟨_, ho⟩ := runScript_reaches_flights s sacts hps has hds
    rw [ho, stageFlights_fail s e1 hfs]
  · obtain ⟨_, ho⟩ := runScript_reaches_flights u uacts hpu hau hdu
    rw [ho, stageFlights_ok u [f] hfu]
    rcases hepc : f.endpoints with _ | ⟨ep, eps⟩
    · exact absurd hepc hep
    · rw [firstTicket_cons f ep eps hepc] at hgu
      rcases hg : u.doGetResult ep.ticket options with ⟨chunks, exc⟩
      rw [hg] at hgu
      simp only at hgu
      subst hgu
      simp only [fetchLoop, hepc, hg]
  · obtain ⟨hc, ho, o, hov, hl⟩ := runScript_continue t hpt
    rw [stageActions_ok t tacts hat, stageAction_fail t rows e2 hdt] at ho
    exact ho

/-- C9 witness: servers failing at list_flights, at do_get, and at the
action invocation respectively. -/
theorem error_propagation_asymmetry_witness :
    (runScript flightsFailServer).outcome = Outcome.uncaught srvExc ∧
    (runScript getFailServer).outcome = Outcome.uncaught srvExc ∧
    (runScript actionFailServer).outcome = Outcome.exited 1 :=
  error_propagation_asymmetry flightsFailServer actionFailServer getFailServer
    _ _ _ srvExc srvExc srvExc [utf8 "1"] demoFlight
    (Or.inl rfl) rfl rfl rfl
    (Or.inl rfl) rfl rfl rfl (by decide) rfl
    (Or.inl rfl) rfl rfl

lemma fetchLoop_congr (a b : Server) (hget : a.doGetResult = b.doGetResult) :
    ∀ fls : List FlightInfo, fetchLoop a fls = fetchLoop b fls := by
  intro fls
  induction fls with
  | nil => rfl
  | cons f rest ih =>
    rcases hep : f.endpoints with _ | ⟨ep, eps⟩ <;> simp only [fetchLoop, hep]
    · rw [hget, ih]

lemma stageFlights_congr (a b : Server)
    (hfl : a.listFlightsResult = b.listFlightsResult)
    (hget : a.doGetResult = b.doGetResult) :
    stageFlights a = stageFlights b := by
  rcases h : b.listFlightsResult options with e | fls
  · rw [stageFlights_fail a e (by rw [hfl, h]), stageFlights_fail b e h]
  · rw [stageFlights_ok a fls (by rw [hfl, h]), stageFlights_ok b fls h,
        fetchLoop_congr a b hget fls]

lemma stageAction_congr (a b : Server)
    (hdo : a.doActionResult = b.doActionResult)
    (hfl : a.listFlightsResult = b.listFlightsResult)
    (hget : a.doGetResult = b.doGetResult) :
    stageAction a = stageAction b := by
  rcases h : b.doActionResult theAction options with ⟨rows, exc⟩
  cases exc with
  | some e =>
    rw [stageAction_fail a rows e (by rw [hdo, h]), stageAction_fail b rows e h]
  | none =>
    rw [stageAction_ok a (by rw [hdo, h]), stageAction_ok b (by rw [h]),
        stageFlights_congr a b hfl hget, hdo]

/-- C10: the action invocation is independent of the result of the action
listing: for any two successful listing results, including the empty one,
over an otherwise identical server, both runs perform the doAction call,
and the call trace from the invocation onwards and the final outcome of
the two runs coincide: the listed action names are never consulted. -/
theorem invoke_independent_of_listed_actions (s : Server)
    (f g : List Header → Except Exc (List ActionType))
    (acts1 acts2 : List ActionType)
    (hp : probeContinues s)
    (hf : f options = Except.ok acts1) (hg : g options = Except.ok acts2) :
    Call.doAction theAction options
      ∈ (runScript { s with listActionsResult := f }).calls ∧
    Call.doAction theAction options
      ∈ (runScript { s with listActionsResult := g }).calls ∧
    invokeTail (runScript { s with listActionsResult := f }).calls
      = invokeTail (runScript { s with listActionsResult := g }).calls ∧
    (runScript { s with listActionsResult := f }).outcome
      = (runScript { s with listActionsResult := g }).outcome := by
  have hp1 : probeContinues { s with listActionsResult := f } := hp
  have hp2 : probeContinues { s with listActionsResult := g } := hp
  obtain ⟨hc1, ho1, o1, _, _⟩ := runScript_continue _ hp1
  obtain ⟨hc2, ho2, o2, _, _⟩ := runScript_continue _ hp2
  rw [stageActions_ok { s with listActionsResult := f } acts1 hf] at hc1 ho1
  rw [stageActions_ok { s with listActionsResult := g } acts2 hg] at hc2 ho2
  have hstage : stageAction { s with listActionsResult := f }
      = stageAction { s with listActionsResult := g } :=
    stageAction_congr _ _ rfl rfl rfl
  obtain ⟨r1, hr1⟩ := stageAction_calls_head { s with listActionsResult := f }
  obtain ⟨r2, hr2⟩ := stageAction_calls_head { s with listActionsResult := g }
  refine ⟨?_, ?_, ?_, ?_⟩
  · rw [hc1, hr1]; simp
  · rw [hc2, hr2]; simp
  · rw [hc1, hc2, hstage]
  · rw [ho1, ho2, hstage]

/-- C10 witness: the all-ok server with an empty listing on one side and a
two-action listing on the other. -/
theorem invoke_independent_of_listed_actions_witness :
    Call.doAction theAction options ∈ (runScript { okServer with
      listActionsResult := fun _ => Except.ok [] }).calls ∧
    Call.doAction theAction options ∈ (runScript { okServer with
      listActionsResult := fun _ => Except.ok
        [⟨"cypherRead", "read"⟩, ⟨"cypherWrite", "write"⟩] }).calls ∧
    invokeTail (runScript { okServer with
        listActionsResult := fun _ => Except.ok [] }).calls
      = invokeTail (runScript { okServer with
        listActionsResult := fun _ => Except.ok
          [⟨"cypherRead", "read"⟩, ⟨"cypherWrite", "write"⟩] }).calls ∧
    (runScript { okServer with
        listActionsResult := fun _ => Except.ok [] }).outcome
      = (runScript { okServer with
        listActionsResult := fun _ => Except.ok
          [⟨"cypherRead", "read"⟩, ⟨"cypherWrite", "write"⟩] }).outcome :=
  invoke_independent_of_listed_actions okServer
    (fun _ => Except.ok [])
    (fun _ => Except.ok [⟨"cypherRead", "read"⟩, ⟨"cypherWrite", "write"⟩])
    [] [⟨"cypherRead", "read"⟩, ⟨"cypherWrite", "write"⟩]
    (Or.inl rfl) rfl rfl
